import Mathlib

/-!
Verification of the OVRO-LWA SK pipeline core against its specification.

Stage 1 (src/beam/scripts/ovro_lwa_sk_stream.py, stream_sk_dualpol):
streaming block reduction of a dual-polarization power spectrogram into
per-block moment sums (S1, S2), SK-based ternary flags, and block-center
times, with input validation mirroring _open_datasets and the checks at
the top of stream_sk_dualpol.

Stage 2 (src/scripts/ovro_lwa_rfi_clean.py, rfi_clean and
_clean_with_good_mask): mask combination across polarizations and
frequency-block integration with a flux-conserving average and a NaN
sentinel for blocks with no good channels.

Power samples, moment sums and times are modelled as rationals (the code
computes them in double precision); values produced by the external SK
evaluator, and the cleaned outputs which may be NaN, are modelled by
`FloatVal`, a rational extended with a NaN element whose comparisons are
always false, matching IEEE/numpy comparison semantics.
-/

namespace OvroLwaSk

/-- Model of an IEEE floating-point value: either NaN or a finite value
(modelled as a rational).  Used for the outputs of the external SK
evaluator `core.get_sk` and for the cleaned stage-2 product, where NaN is
the sentinel for an undefined estimate. -/
inductive FloatVal where
  | nan : FloatVal
  | val (q : ℚ) : FloatVal
deriving DecidableEq, Repr

/-- Strict less-than on modelled float values, with numpy semantics: any
comparison involving NaN is false. -/
def fvLt : FloatVal → FloatVal → Bool
  | .val a, .val b => a < b
  | _, _ => false

/-- Strict greater-than on modelled float values: `a > b` is `b < a`;
false whenever either side is NaN. -/
def fvGt (a b : FloatVal) : Bool := fvLt b a

/-- Per-cell SK flag, mirroring ovro_lwa_sk_stream.py lines 373-380: the
flag array is initialised to 0, cells with `sk < lower` are assigned -1,
and then cells with `sk > upper` are assigned +1 (the later assignment
wins where both comparisons hold). -/
def skFlag (sk lower upper : FloatVal) : ℤ :=
  if fvGt sk upper then 1
  else if fvLt sk lower then -1
  else 0

/-- Flag of polarization `pol` (true = XX, false = YY) at block `k`,
channel `f`, given the single threshold pair `(lower, upper)` and the SK
values `sk` delivered by the external evaluator for each cell. -/
def streamFlags (lower upper : FloatVal) (sk : Bool → ℕ → ℕ → FloatVal)
    (pol : Bool) (k f : ℕ) : ℤ :=
  skFlag (sk pol k f) lower upper

/-- Flags of the whole stream run, with the threshold pair computed once
from the configuration (M, N, d, pfa) by the external threshold function
`th` (`compute_sk_thresholds`, called a single time at line 249) and then
reused for every block and both polarizations. -/
def streamFlagsCfg (th : ℤ → ℤ → ℚ → ℚ → FloatVal × FloatVal)
    (M N : ℤ) (d pfa : ℚ) (sk : Bool → ℕ → ℕ → FloatVal)
    (pol : Bool) (k f : ℕ) : ℤ :=
  streamFlags (th M N d pfa).1 (th M N d pfa).2 sk pol k f

theorem fvLt_trans {s l u : FloatVal} (h1 : fvLt s l = true)
    (h2 : fvLt u s = true) : fvLt u l = true := by
  cases s <;> cases l <;> cases u <;> simp [fvLt] at * <;> linarith

/-- C1: for every block and channel of each polarization, the stored flag
is -1 exactly when SK < lower, +1 exactly when SK > upper and 0
otherwise; it always lies in {-1, 0, +1}; and the single pair
(lower, upper) obtained once from (M, N, d, pfa) governs every cell.
The hypothesis `hlu` states that the threshold pair is not inverted
(upper is not strictly below lower), which holds for the thresholds
returned by the external `compute_sk_thresholds`. -/
theorem c1_flag_classification (th : ℤ → ℤ → ℚ → ℚ → FloatVal × FloatVal)
    (M N : ℤ) (d pfa : ℚ) (sk : Bool → ℕ → ℕ → FloatVal)
    (lower upper : FloatVal)
    (hl : lower = (th M N d pfa).1) (hu : upper = (th M N d pfa).2)
    (hlu : fvLt upper lower = false) (pol : Bool) (k f : ℕ) :
    streamFlagsCfg th M N d pfa sk pol k f = skFlag (sk pol k f) lower upper ∧
    (streamFlagsCfg th M N d pfa sk pol k f = -1 ↔ fvLt (sk pol k f) lower = true) ∧
    (streamFlagsCfg th M N d pfa sk pol k f = 1 ↔ fvGt (sk pol k f) upper = true) ∧
    (streamFlagsCfg th M N d pfa sk pol k f = 0 ↔
      (fvLt (sk pol k f) lower = false ∧ fvGt (sk pol k f) upper = false)) ∧
    (streamFlagsCfg th M N d pfa sk pol k f = -1 ∨
      streamFlagsCfg th M N d pfa sk pol k f = 0 ∨
      streamFlagsCfg th M N d pfa sk pol k f = 1) := by
  subst hl
  subst hu
  unfold streamFlagsCfg streamFlags skFlag
  rcases hG : fvGt (sk pol k f) (th M N d pfa).2 with _ | _
  · rcases hL : fvLt (sk pol k f) (th M N d pfa).1 with _ | _ <;> simp [hG, hL]
  · have hL : fvLt (sk pol k f) (th M N d pfa).1 = false := by
      by_contra hc
      have hL' : fvLt (sk pol k f) (th M N d pfa).1 = true := by
        revert hc
        cases fvLt (sk pol k f) (th M N d pfa).1 <;> simp
      have := fvLt_trans hL' (hG : fvLt (th M N d pfa).2 (sk pol k f) = true)
      rw [hlu] at this
      exact Bool.noConfusion this
    simp [hG, hL]

/-- Witness for C1 at a concrete threshold function and SK array. -/
theorem c1_flag_classification_witness :
    streamFlagsCfg (fun _ _ _ _ => (FloatVal.val 0, FloatVal.val 1)) 64 24 1 1
      (fun _ _ _ => FloatVal.val 2) true 0 0 = 1 := by
  have h := c1_flag_classification (fun _ _ _ _ => (FloatVal.val 0, FloatVal.val 1))
    64 24 1 1 (fun _ _ _ => FloatVal.val 2) (FloatVal.val 0) (FloatVal.val 1)
    rfl rfl (by decide) true 0 0
  exact h.2.2.1.mpr (by decide)

/-- Running sum of `m` power samples of channel `f` starting at row `i0`,
the accumulation performed by `block.sum(axis=0)` at line 348. -/
def sumPow (p : ℕ → ℕ → ℚ) (i0 f : ℕ) : ℕ → ℚ
  | 0 => 0
  | m + 1 => sumPow p i0 f m + p (i0 + m) f

/-- Running sum of squares of `m` power samples, the accumulation of
`np.square(block).sum(axis=0)` at line 352. -/
def sumPowSq (p : ℕ → ℕ → ℚ) (i0 f : ℕ) : ℕ → ℚ
  | 0 => 0
  | m + 1 => sumPowSq p i0 f m + p (i0 + m) f ^ 2

/-- S1 of block `k`: sum of the M samples of rows
[start + k*M, start + k*M + M) (lines 335-336, 348). -/
def blockS1 (p : ℕ → ℕ → ℚ) (start M k f : ℕ) : ℚ :=
  sumPow p (start + k * M) f M

/-- S2 of block `k`: sum of squares over the same rows (line 352). -/
def blockS2 (p : ℕ → ℕ → ℚ) (start M k f : ℕ) : ℚ :=
  sumPowSq p (start + k * M) f M

/-- Running sum of `m` timestamps starting at row `i0` (numerator of
`np.mean(t_block)` at line 344). -/
def sumTime (time : ℕ → ℚ) (i0 : ℕ) : ℕ → ℚ
  | 0 => 0
  | m + 1 => sumTime time i0 m + time (i0 + m)

/-- Block-center time of block `k`: arithmetic mean of the raw timestamps
of rows [start + k*M, start + k*M + M) (lines 343-344). -/
def timeBlk (time : ℕ → ℚ) (start M k : ℕ) : ℚ :=
  sumTime time (start + k * M) M / (M : ℚ)

/-- SK value of block `k`, channel `f`, as produced by the external
evaluator `core.get_sk` (lines 356-370), modelled as an abstract function
`skFun` of the block moment sums (S1, S2). -/
def blockSK (skFun : ℚ → ℚ → FloatVal) (p : ℕ → ℕ → ℚ)
    (start M k f : ℕ) : FloatVal :=
  skFun (blockS1 p start M k f) (blockS2 p start M k f)

/-- Flag of block `k`, channel `f`, obtained from the block's SK value and
the threshold pair (lines 373-380). -/
def blockFlag (skFun : ℚ → ℚ → FloatVal) (lower upper : FloatVal)
    (p : ℕ → ℕ → ℚ) (start M k f : ℕ) : ℤ :=
  skFlag (blockSK skFun p start M k f) lower upper

/-- Number of full blocks formed from `S` selected samples with block size
`M` (line 232, `T = ns_sel // M`, for a positive block size). -/
def numBlocks (S M : ℕ) : ℕ := S / M

theorem sumPow_eq_sum (p : ℕ → ℕ → ℚ) (i0 f m : ℕ) :
    sumPow p i0 f m = ∑ i ∈ Finset.range m, p (i0 + i) f := by
  induction m with
  | zero => simp [sumPow]
  | succ n ih => rw [Finset.sum_range_succ, ← ih, sumPow]

theorem sumPowSq_eq_sum (p : ℕ → ℕ → ℚ) (i0 f m : ℕ) :
    sumPowSq p i0 f m = ∑ i ∈ Finset.range m, p (i0 + i) f ^ 2 := by
  induction m with
  | zero => simp [sumPowSq]
  | succ n ih => rw [Finset.sum_range_succ, ← ih, sumPowSq]

theorem sumTime_eq_sum (time : ℕ → ℚ) (i0 m : ℕ) :
    sumTime time i0 m = ∑ i ∈ Finset.range m, time (i0 + i) := by
  induction m with
  | zero => simp [sumTime]
  | succ n ih => rw [Finset.sum_range_succ, ← ih, sumTime]

/-- C4: S1 of block `k` is the sum of the raw power samples over rows
[start + k*M, start + k*M + M) and S2 the sum of their squares; and for
M = 4, a single channel with samples [1, 2, 3, 4] yields S1 = 10 and
S2 = 30. -/
theorem c4_moment_sums (p : ℕ → ℕ → ℚ) (start M k f : ℕ) :
    blockS1 p start M k f = (∑ i ∈ Finset.range M, p (start + k * M + i) f) ∧
    blockS2 p start M k f = (∑ i ∈ Finset.range M, p (start + k * M + i) f ^ 2) ∧
    blockS1 (fun i _ => (i : ℚ) + 1) 0 4 0 0 = 10 ∧
    blockS2 (fun i _ => (i : ℚ) + 1) 0 4 0 0 = 30 := by
  refine ⟨sumPow_eq_sum p (start + k * M) f M,
    sumPowSq_eq_sum p (start + k * M) f M, ?_, ?_⟩ <;>
    simp [blockS1, blockS2, sumPow, sumPowSq] <;> norm_num

theorem sumPow_congr (p q : ℕ → ℕ → ℚ) (i0 f m : ℕ)
    (h : ∀ i, i0 ≤ i → i < i0 + m → p i f = q i f) :
    sumPow p i0 f m = sumPow q i0 f m := by
  induction m with
  | zero => rfl
  | succ n ih =>
    rw [sumPow, sumPow, ih (fun i h1 h2 => h i h1 (by omega)),
      h (i0 + n) (by omega) (by omega)]

theorem sumPowSq_congr (p q : ℕ → ℕ → ℚ) (i0 f m : ℕ)
    (h : ∀ i, i0 ≤ i → i < i0 + m → p i f = q i f) :
    sumPowSq p i0 f m = sumPowSq q i0 f m := by
  induction m with
  | zero => rfl
  | succ n ih =>
    rw [sumPowSq, sumPowSq, ih (fun i h1 h2 => h i h1 (by omega)),
      h (i0 + n) (by omega) (by omega)]

theorem sumTime_congr (t1 t2 : ℕ → ℚ) (i0 m : ℕ)
    (h : ∀ i, i0 ≤ i → i < i0 + m → t1 i = t2 i) :
    sumTime t1 i0 m = sumTime t2 i0 m := by
  induction m with
  | zero => rfl
  | succ n ih =>
    rw [sumTime, sumTime, ih (fun i h1 h2 => h i h1 (by omega)),
      h (i0 + n) (by omega) (by omega)]

theorem block_row_lt (start M k j T : ℕ) (hk : k < T) (hj : j < M) :
    start + k * M + j < start + T * M := by
  have h1 : k * M + j < (k + 1) * M := by
    rw [Nat.succ_mul]
    omega
  have h2 : (k + 1) * M ≤ T * M := Nat.mul_le_mul_right M hk
  omega

/-- C7: the number of produced blocks is T = floor(S / M) (equal to the
Python floor division `ns_sel // M` performed on integers), and no value
of the output — S1, S2, flag or block-center time — depends on the
trailing S - T*M remainder samples: two runs whose power and time arrays
agree on rows [start, start + T*M) produce identical outputs for every
block k < T. -/
theorem c7_remainder_dropped (S M start : ℕ)
    (p q : ℕ → ℕ → ℚ) (tm tm2 : ℕ → ℚ)
    (skFun : ℚ → ℚ → FloatVal) (lower upper : FloatVal)
    (hp : ∀ i f, start ≤ i → i < start + numBlocks S M * M → p i f = q i f)
    (ht : ∀ i, start ≤ i → i < start + numBlocks S M * M → tm i = tm2 i)
    (k : ℕ) (hk : k < numBlocks S M) (f : ℕ) :
    numBlocks S M = S / M ∧
    Int.fdiv (S : ℤ) (M : ℤ) = (numBlocks S M : ℤ) ∧
    blockS1 p start M k f = blockS1 q start M k f ∧
    blockS2 p start M k f = blockS2 q start M k f ∧
    blockFlag skFun lower upper p start M k f
      = blockFlag skFun lower upper q start M k f ∧
    timeBlk tm start M k = timeBlk tm2 start M k := by
  have hrow : ∀ j, j < M → start + k * M + j < start + numBlocks S M * M :=
    fun j hj => block_row_lt start M k j (numBlocks S M) hk hj
  have hs1 : blockS1 p start M k f = blockS1 q start M k f := by
    apply sumPow_congr
    intro i h1 h2
    exact hp i f (by omega) (by have := hrow (i - (start + k * M)) (by omega); omega)
  have hs2 : blockS2 p start M k f = blockS2 q start M k f := by
    apply sumPowSq_congr
    intro i h1 h2
    exact hp i f (by omega) (by have := hrow (i - (start + k * M)) (by omega); omega)
  refine ⟨rfl, ?_, hs1, hs2, ?_, ?_⟩
  · rw [Int.fdiv_eq_ediv _ (by positivity)]
    exact_mod_cast rfl
  · unfold blockFlag blockSK
    rw [hs1, hs2]
  · unfold timeBlk
    congr 1
    apply sumTime_congr
    intro i h1 h2
    exact ht i (by omega) (by have := hrow (i - (start + k * M)) (by omega); omega)

/-- Witness for C7: with S = 5, M = 2 (so T = 2), changing the remainder
sample (row 4) does not change block 0's S1. -/
theorem c7_remainder_dropped_witness :
    blockS1 (fun i _ => (i : ℚ)) 0 2 0 0
      = blockS1 (fun i _ => if i < 4 then (i : ℚ) else 99) 0 2 0 0 := by
  have h := c7_remainder_dropped 5 2 0 (fun i _ => (i : ℚ))
    (fun i _ => if i < 4 then (i : ℚ) else 99)
    (fun _ => 0) (fun _ => 0)
    (fun a b => FloatVal.val (a + b)) (FloatVal.val 0) (FloatVal.val 1)
    (by
      intro i f h1 h2
      have hi : i < 4 := by simpa [numBlocks] using h2
      show (i : ℚ) = if i < 4 then (i : ℚ) else 99
      rw [if_pos hi])
    (fun i h1 h2 => rfl) 0 (by decide) 0
  exact h.2.2.1

/-- Error cases raised by stage-1 reduction.  Each constructor corresponds
to one raise site: the two shape checks of `_open_datasets`
(lines 121-137), the start-index and selection checks of
`stream_sk_dualpol` (lines 210-238), and the Python `ZeroDivisionError`
that `ns_sel // M` raises when M = 0 (line 232). -/
inductive StreamError where
  | shapeMismatch
  | freqLenMismatch
  | startOutOfRange
  | nsMaxNonPositive
  | noSamplesSelected
  | zeroDivisionM
  | notEnoughSamples
deriving DecidableEq, Repr

/-- Error taxonomy of the specification (section 7). -/
inductive ErrorClass where
  | configError
  | shapeMismatchError
  | insufficientDataError
  | uncategorized
deriving DecidableEq, Repr

/-- Modelled from the spec: the spec's section-7 taxonomy name for each
raise site of the code, matched by the wording of the raised message
(shape/frequency-axis mismatches are ShapeMismatchError; out-of-range
start index and an invalid ns_max are ConfigError; too few samples for a
block is InsufficientDataError; the bare division-by-zero crash at M = 0
carries no taxonomy class). -/
def specErrorClass : StreamError → ErrorClass
  | .shapeMismatch => .shapeMismatchError
  | .freqLenMismatch => .shapeMismatchError
  | .startOutOfRange => .configError
  | .nsMaxNonPositive => .configError
  | .noSamplesSelected => .insufficientDataError
  | .zeroDivisionM => .uncategorized
  | .notEnoughSamples => .insufficientDataError

/-- Mirrors lines 225-238 of stream_sk_dualpol: the `ns_sel <= 0` check,
the Python floor division `T = ns_sel // M` (a ZeroDivisionError when
M = 0), and the `T <= 0` check; on success returns (T, ns_eff). -/
def streamValidateTail (nsSel M : ℤ) : Except StreamError (ℤ × ℤ) :=
  if nsSel ≤ 0 then .error .noSamplesSelected
  else if M = 0 then .error .zeroDivisionM
  else if Int.fdiv nsSel M ≤ 0 then .error .notEnoughSamples
  else .ok (Int.fdiv nsSel M, Int.fdiv nsSel M * M)

/-- Stage-1 validation and block-count computation, mirroring
`_open_datasets` (shape and frequency-axis checks, lines 121-137)
followed by the checks at the top of `stream_sk_dualpol`
(lines 210-238).  On success it returns (T, ns_eff). -/
def streamValidate (nsXX nfXX nsYY nfYY nfFreq : ℕ) (startIdx : ℤ)
    (nsMax : Option ℤ) (M : ℤ) : Except StreamError (ℤ × ℤ) :=
  if ¬ (nsXX = nsYY ∧ nfXX = nfYY) then .error .shapeMismatch
  else if ¬ (nfFreq = nfXX) then .error .freqLenMismatch
  else
    if startIdx < 0 ∨ (nsXX : ℤ) ≤ startIdx then .error .startOutOfRange
    else
      match nsMax with
      | none => streamValidateTail ((nsXX : ℤ) - startIdx) M
      | some m =>
        if m ≤ 0 then .error .nsMaxNonPositive
        else streamValidateTail (min m ((nsXX : ℤ) - startIdx)) M

/-- Selected sample count ns_sel (lines 216-223) as a function of the
total row count, the start index and the optional cap. -/
def nsSelOf (nsTotal startIdx : ℤ) : Option ℤ → ℤ
  | none => nsTotal - startIdx
  | some m => min m (nsTotal - startIdx)

/-- Validity of the optional sample cap: ns_max, when given, is positive
(so that line 220 does not reject it). -/
def nsMaxOk : Option ℤ → Prop
  | none => True
  | some m => 0 < m

theorem fdiv_nonpos_of_nonneg_of_neg {a b : ℤ} (ha : 0 ≤ a) (hb : b < 0) :
    Int.fdiv a b ≤ 0 := by
  match a, b with
  | Int.ofNat 0, b => simp [Int.fdiv]
  | Int.ofNat (m + 1), Int.negSucc n => exact le_of_lt (Int.negSucc_lt_zero _)
  | Int.ofNat (m + 1), Int.ofNat n => exact absurd hb (by simp)
  | Int.negSucc m, b => exact absurd ha (by simp)

theorem streamValidate_valid (nsXX nfXX nsYY nfYY nfFreq : ℕ)
    (startIdx : ℤ) (nsMax : Option ℤ) (M : ℤ)
    (hsh : nsXX = nsYY ∧ nfXX = nfYY) (hfr : nfFreq = nfXX)
    (hst : 0 ≤ startIdx ∧ startIdx < (nsXX : ℤ)) (hmax : nsMaxOk nsMax) :
    streamValidate nsXX nfXX nsYY nfYY nfFreq startIdx nsMax M =
      streamValidateTail (nsSelOf (nsXX : ℤ) startIdx nsMax) M := by
  unfold streamValidate
  rw [if_neg (by tauto), if_neg (by tauto), if_neg (by omega)]
  cases nsMax with
  | none => rfl
  | some m =>
    have hm : 0 < m := hmax
    show (if m ≤ 0 then (Except.error StreamError.nsMaxNonPositive)
      else streamValidateTail (min m ((nsXX : ℤ) - startIdx)) M) = _
    rw [if_neg (by omega)]
    rfl

theorem nsSelOf_pos {nsTotal startIdx : ℤ} (nsMax : Option ℤ)
    (hst : 0 ≤ startIdx ∧ startIdx < nsTotal) (hmax : nsMaxOk nsMax) :
    0 < nsSelOf nsTotal startIdx nsMax := by
  cases nsMax with
  | none => simp only [nsSelOf]; omega
  | some m =>
    have hm : 0 < m := hmax
    simp only [nsSelOf, lt_min_iff]
    omega

theorem streamValidateTail_no_ok {nsSel M : ℤ} (hM : M ≤ 0) (r : ℤ × ℤ) :
    streamValidateTail nsSel M ≠ .ok r := by
  unfold streamValidateTail
  split_ifs with h1 h2 h3
  · exact fun h => Except.noConfusion h
  · exact fun h => Except.noConfusion h
  · exact fun h => Except.noConfusion h
  · exact absurd (fdiv_nonpos_of_nonneg_of_neg (by omega) (by omega)) h3

/-- C5 (amended): stage-1 reduction rejects mismatched polarization
shapes and frequency-axis lengths with the ShapeMismatchError-class
failure, rejects start offsets outside [0, total_samples) with the
ConfigError-class failure, and fails with the
InsufficientDataError-class failure when fewer than M samples remain
after the start offset; for M ≤ 0 it also always fails and produces no
output, but not through a ConfigError: M = 0 hits the uncategorized
ZeroDivisionError of `ns_sel // M`, and M < 0 falls through to the
not-enough-samples failure (classified InsufficientDataError). -/
theorem c5_stage1_failures (nsXX nfXX nsYY nfYY nfFreq : ℕ)
    (startIdx : ℤ) (nsMax : Option ℤ) (M : ℤ) :
    (¬ (nsXX = nsYY ∧ nfXX = nfYY) →
      streamValidate nsXX nfXX nsYY nfYY nfFreq startIdx nsMax M
          = .error .shapeMismatch ∧
      specErrorClass .shapeMismatch = .shapeMismatchError) ∧
    ((nsXX = nsYY ∧ nfXX = nfYY) → nfFreq ≠ nfXX →
      streamValidate nsXX nfXX nsYY nfYY nfFreq startIdx nsMax M
          = .error .freqLenMismatch ∧
      specErrorClass .freqLenMismatch = .shapeMismatchError) ∧
    ((nsXX = nsYY ∧ nfXX = nfYY) → nfFreq = nfXX →
      (startIdx < 0 ∨ (nsXX : ℤ) ≤ startIdx) →
      streamValidate nsXX nfXX nsYY nfYY nfFreq startIdx nsMax M
          = .error .startOutOfRange ∧
      specErrorClass .startOutOfRange = .configError) ∧
    ((nsXX = nsYY ∧ nfXX = nfYY) → nfFreq = nfXX →
      0 ≤ startIdx ∧ startIdx < (nsXX : ℤ) → nsMaxOk nsMax → M = 0 →
      streamValidate nsXX nfXX nsYY nfYY nfFreq startIdx nsMax M
          = .error .zeroDivisionM ∧
      specErrorClass .zeroDivisionM ≠ .configError) ∧
    ((nsXX = nsYY ∧ nfXX = nfYY) → nfFreq = nfXX →
      0 ≤ startIdx ∧ startIdx < (nsXX : ℤ) → nsMaxOk nsMax → M < 0 →
      streamValidate nsXX nfXX nsYY nfYY nfFreq startIdx nsMax M
          = .error .notEnoughSamples ∧
      specErrorClass .notEnoughSamples = .insufficientDataError) ∧
    ((nsXX = nsYY ∧ nfXX = nfYY) → nfFreq = nfXX →
      0 ≤ startIdx ∧ startIdx < (nsXX : ℤ) → nsMaxOk nsMax → 0 < M →
      (nsXX : ℤ) - startIdx < M →
      streamValidate nsXX nfXX nsYY nfYY nfFreq startIdx nsMax M
          = .error .notEnoughSamples ∧
      specErrorClass .notEnoughSamples = .insufficientDataError) ∧
    (M ≤ 0 → ∀ r, streamValidate nsXX nfXX nsYY nfYY nfFreq startIdx nsMax M
          ≠ .ok r) := by
  refine ⟨?_, ?_, ?_, ?_, ?_, ?_, ?_⟩
  · intro h
    refine ⟨?_, rfl⟩
    unfold streamValidate
    rw [if_pos h]
  · intro hsh hfr
    refine ⟨?_, rfl⟩
    unfold streamValidate
    rw [if_neg (by tauto), if_pos hfr]
  · intro hsh hfr hst
    refine ⟨?_, rfl⟩
    unfold streamValidate
    rw [if_neg (by tauto), if_neg (by tauto), if_pos hst]
  · intro hsh hfr hst hmax hM
    refine ⟨?_, by decide⟩
    rw [streamValidate_valid nsXX nfXX nsYY nfYY nfFreq startIdx nsMax M
      hsh hfr hst hmax]
    unfold streamValidateTail
    rw [if_neg (by have := nsSelOf_pos nsMax hst hmax; omega), if_pos hM]
  · intro hsh hfr hst hmax hM
    refine ⟨?_, rfl⟩
    rw [streamValidate_valid nsXX nfXX nsYY nfYY nfFreq startIdx nsMax M
      hsh hfr hst hmax]
    have hsel := nsSelOf_pos nsMax hst hmax
    unfold streamValidateTail
    rw [if_neg (by omega), if_neg (by omega),
      if_pos (fdiv_nonpos_of_nonneg_of_neg (by omega) hM)]
  · intro hsh hfr hst hmax hM hrem
    refine ⟨?_, rfl⟩
    rw [streamValidate_valid nsXX nfXX nsYY nfYY nfFreq startIdx nsMax M
      hsh hfr hst hmax]
    have hsel := nsSelOf_pos nsMax hst hmax
    have hselle : nsSelOf (nsXX : ℤ) startIdx nsMax ≤ (nsXX : ℤ) - startIdx := by
      cases nsMax with
      | none => simp [nsSelOf]
      | some m => simp only [nsSelOf]; exact min_le_right _ _
    unfold streamValidateTail
    rw [if_neg (by omega), if_neg (by omega)]
    rw [if_pos ?_]
    rw [Int.fdiv_eq_ediv _ (by omega), Int.ediv_eq_zero_of_lt (by omega) (by omega)]
  · intro hM r
    cases nsMax with
    | none =>
      simp only [streamValidate]
      split_ifs with h1 h2 h3 <;>
        first
          | exact fun h => Except.noConfusion h
          | exact streamValidateTail_no_ok hM r
    | some m =>
      simp only [streamValidate]
      split_ifs with h1 h2 h3 h4 <;>
        first
          | exact fun h => Except.noConfusion h
          | exact streamValidateTail_no_ok hM r

/-- Witness for C5 at concrete inputs: mismatched XX/YY row counts are
rejected as a shape mismatch. -/
theorem c5_stage1_failures_witness :
    streamValidate 10 4 11 4 4 0 none 64 = Except.error StreamError.shapeMismatch := by
  exact ((c5_stage1_failures 10 4 11 4 4 0 none 64).1 (by decide)).1

/-- C5 counterexample to the original claim: with agreeing shapes, a
valid start offset and 10 available samples, M = -1 does not produce the
ConfigError-class failure the claim requires; it falls through to the
not-enough-samples failure, whose class is InsufficientDataError, and
M = 0 dies with the uncategorized ZeroDivisionError. -/
theorem c5_counterexample :
    streamValidate 10 4 10 4 4 0 none (-1)
        = Except.error StreamError.notEnoughSamples ∧
    specErrorClass .notEnoughSamples ≠ ErrorClass.configError ∧
    streamValidate 10 4 10 4 4 0 none 0
        = Except.error StreamError.zeroDivisionM ∧
    specErrorClass .zeroDivisionM ≠ ErrorClass.configError := by
  exact ⟨rfl, by decide, rfl, by decide⟩

/-- Number of full frequency blocks (line 166, `n_blocks = F // F_block`). -/
def nBlocksOf (F Fblock : ℕ) : ℕ := F / Fblock

/-- Effective channel count (line 167, `F_eff = n_blocks * F_block`). -/
def fEff (F Fblock : ℕ) : ℕ := nBlocksOf F Fblock * Fblock

/-- Good mask converted to floats, 1.0 for good and 0.0 for bad
(line 178, `good_f = good_eff.astype(float)`). -/
def goodF (good : ℕ → ℕ → Bool) (t c : ℕ) : ℚ :=
  if good t c then 1 else 0

/-- Masked block sum `s1_sum` of time row `t`, frequency block `b`
(lines 181-186: `s1_masked = s1_eff * good_f` reshaped into blocks and
summed over the F_block channels of the block). -/
def s1Sum (s1 : ℕ → ℕ → ℚ) (good : ℕ → ℕ → Bool) (Fblock t b : ℕ) : ℚ :=
  ∑ j ∈ Finset.range Fblock, s1 t (b * Fblock + j) * goodF good t (b * Fblock + j)

/-- Count `n_good` of good channels in the block, as the code computes it
(line 187, the float sum of the indicator over the block). -/
def nGoodQ (good : ℕ → ℕ → Bool) (Fblock t b : ℕ) : ℚ :=
  ∑ j ∈ Finset.range Fblock, goodF good t (b * Fblock + j)

/-- Good-channel count of the block as a natural number. -/
def nGood (good : ℕ → ℕ → Bool) (Fblock t b : ℕ) : ℕ :=
  ((Finset.range Fblock).filter fun j => good t (b * Fblock + j) = true).card

/-- One cell of the cleaned product `s1_clean` (lines 190-202): the
average of the good channels inflated back to F_block channels, with the
division guarded by `where=(n_good > 0)` and cells with `n_good == 0`
overwritten by NaN. -/
def s1Clean (s1 : ℕ → ℕ → ℚ) (good : ℕ → ℕ → Bool) (Fblock t b : ℕ) : FloatVal :=
  if 0 < nGoodQ good Fblock t b then
    .val (s1Sum s1 good Fblock t b / nGoodQ good Fblock t b * (Fblock : ℚ))
  else .nan

/-- Flag-combination policy of rfi_clean (`--flag-mode`). -/
inductive FlagMode where
  | sepMode
  | orMode
  | andMode
deriving DecidableEq, Repr

/-- Shared combined mask `good_comb` (lines 269-279): built only when the
policy is or/and and both polarizations are present; under `or` a cell is
flagged when either polarization flags it, under `and` when both do, and
the good mask is the negation. -/
def goodComb (mode : FlagMode) (hasXX hasYY : Bool) (fxx fyy : ℕ → ℕ → ℤ) :
    Option (ℕ → ℕ → Bool) :=
  if (mode = .orMode ∨ mode = .andMode) ∧ hasXX = true ∧ hasYY = true then
    if mode = .orMode then
      some fun t f => !((fxx t f != 0) || (fyy t f != 0))
    else
      some fun t f => !((fxx t f != 0) && (fyy t f != 0))
  else none

/-- Mask used to integrate XX (line 288): the shared combined mask when it
exists, otherwise XX's own good mask `flags_xx == 0` (line 256). -/
def goodForXX (mode : FlagMode) (hasXX hasYY : Bool) (fxx fyy : ℕ → ℕ → ℤ) :
    ℕ → ℕ → Bool :=
  match goodComb mode hasXX hasYY fxx fyy with
  | some g => g
  | none => fun t f => fxx t f == 0

/-- Mask used to integrate YY (line 297): the shared combined mask when it
exists, otherwise YY's own good mask `flags_yy == 0` (line 261). -/
def goodForYY (mode : FlagMode) (hasXX hasYY : Bool) (fxx fyy : ℕ → ℕ → ℤ) :
    ℕ → ℕ → Bool :=
  match goodComb mode hasXX hasYY fxx fyy with
  | some g => g
  | none => fun t f => fyy t f == 0

/-- Cleaned XX cell produced by rfi_clean (lines 286-293): XX's S1
integrated with the mask selected for XX. -/
def rfiCleanXX (mode : FlagMode) (hasXX hasYY : Bool) (s1xx : ℕ → ℕ → ℚ)
    (fxx fyy : ℕ → ℕ → ℤ) (Fblock t b : ℕ) : FloatVal :=
  s1Clean s1xx (goodForXX mode hasXX hasYY fxx fyy) Fblock t b

/-- Cleaned YY cell produced by rfi_clean (lines 295-299). -/
def rfiCleanYY (mode : FlagMode) (hasXX hasYY : Bool) (s1yy : ℕ → ℕ → ℚ)
    (fxx fyy : ℕ → ℕ → ℤ) (Fblock t b : ℕ) : FloatVal :=
  s1Clean s1yy (goodForYY mode hasXX hasYY fxx fyy) Fblock t b

/-- Frequency label of block `b`: the mean of its F_block constituent
channel frequencies, taken over the truncated axis (lines 316-317). -/
def freqBlk (freq : ℕ → ℚ) (Fblock b : ℕ) : ℚ :=
  (∑ j ∈ Finset.range Fblock, freq (b * Fblock + j)) / (Fblock : ℚ)

theorem nGoodQ_eq_card (good : ℕ → ℕ → Bool) (Fblock t b : ℕ) :
    nGoodQ good Fblock t b = (nGood good Fblock t b : ℚ) := by
  unfold nGoodQ nGood goodF
  rw [Finset.sum_boole]

theorem s1Sum_eq_filter_sum (s1 : ℕ → ℕ → ℚ) (good : ℕ → ℕ → Bool)
    (Fblock t b : ℕ) :
    s1Sum s1 good Fblock t b =
      ∑ j ∈ (Finset.range Fblock).filter (fun j => good t (b * Fblock + j) = true),
        s1 t (b * Fblock + j) := by
  unfold s1Sum goodF
  rw [Finset.sum_filter]
  refine Finset.sum_congr rfl fun j _ => ?_
  by_cases h : good t (b * Fblock + j) = true <;> simp [h]

/-- C2: for every time index and frequency block, when the good-channel
count is positive the cleaned cell is the average of S1 over the block's
good channels inflated by F_block, and when it is zero the cleaned cell
is the NaN sentinel. -/
theorem c2_block_integration (s1 : ℕ → ℕ → ℚ) (good : ℕ → ℕ → Bool)
    (Fblock t b : ℕ) :
    (0 < nGood good Fblock t b →
      s1Clean s1 good Fblock t b =
        .val ((∑ j ∈ (Finset.range Fblock).filter
              (fun j => good t (b * Fblock + j) = true), s1 t (b * Fblock + j))
            / (nGood good Fblock t b : ℚ) * (Fblock : ℚ))) ∧
    (nGood good Fblock t b = 0 → s1Clean s1 good Fblock t b = .nan) := by
  constructor
  · intro h
    have hq : 0 < nGoodQ good Fblock t b := by
      rw [nGoodQ_eq_card]
      exact_mod_cast h
    unfold s1Clean
    rw [if_pos hq, s1Sum_eq_filter_sum, nGoodQ_eq_card]
  · intro h
    have hq : ¬ 0 < nGoodQ good Fblock t b := by
      rw [nGoodQ_eq_card, h]
      simp
    unfold s1Clean
    rw [if_neg hq]

/-- Witness for C2: with F_block = 2, one good channel of value 3 the
cleaned cell is 3 / 1 * 2 = 6, and with no good channel it is NaN. -/
theorem c2_block_integration_witness :
    s1Clean (fun _ _ => 3) (fun _ c => c == 0) 2 0 0 = FloatVal.val 6 ∧
    s1Clean (fun _ _ => 3) (fun _ _ => false) 2 0 0 = FloatVal.nan := by
  constructor
  · rw [(c2_block_integration (fun _ _ => 3) (fun _ c => c == 0) 2 0 0).1 (by decide)]
    congr 1
    rw [show nGood (fun _ c => c == 0) 2 0 0 = 1 from rfl, Finset.sum_filter,
      Finset.sum_range_succ, Finset.sum_range_succ, Finset.sum_range_zero]
    norm_num
  · exact (c2_block_integration (fun _ _ => 3) (fun _ _ => false) 2 0 0).2 (by decide)

/-- C6: a frequency block whose channels are all good integrates to the
unweighted sum of S1 over its F_block channels (the flux-conserving
identity average * F_block = sum). -/
theorem c6_all_good_flux (s1 : ℕ → ℕ → ℚ) (good : ℕ → ℕ → Bool)
    (Fblock t b : ℕ) (hF : 0 < Fblock)
    (h : nGood good Fblock t b = Fblock) :
    s1Clean s1 good Fblock t b =
      .val (∑ j ∈ Finset.range Fblock, s1 t (b * Fblock + j)) := by
  have hfilter : (Finset.range Fblock).filter
      (fun j => good t (b * Fblock + j) = true) = Finset.range Fblock := by
    apply Finset.eq_of_subset_of_card_le (Finset.filter_subset _ _)
    rw [Finset.card_range]
    exact le_of_eq h.symm
  have hq : nGoodQ good Fblock t b = (Fblock : ℚ) := by
    rw [nGoodQ_eq_card, h]
  have hFq : (Fblock : ℚ) ≠ 0 := by positivity
  unfold s1Clean
  rw [if_pos (by rw [hq]; positivity), s1Sum_eq_filter_sum, hfilter, hq,
    div_mul_cancel₀ _ hFq]

/-- Witness for C6: all four channels good, values 0..3, cleaned cell is
their straight sum 6. -/
theorem c6_all_good_flux_witness :
    s1Clean (fun _ c => (c : ℚ)) (fun _ _ => true) 4 0 0 = FloatVal.val 6 := by
  rw [c6_all_good_flux (fun _ c => (c : ℚ)) (fun _ _ => true) 4 0 0
    (by decide) (by decide)]
  congr 1
  rw [Finset.sum_range_succ, Finset.sum_range_succ, Finset.sum_range_succ,
    Finset.sum_range_succ, Finset.sum_range_zero]
  norm_num

/-- C3: with both polarizations present, the `or` policy's combined good
mask at a cell is NOT(flag_xx ≠ 0 OR flag_yy ≠ 0), the `and` policy's is
NOT(flag_xx ≠ 0 AND flag_yy ≠ 0), the mask used for XX is the very mask
used for YY, and both polarizations are integrated with it. -/
theorem c3_mask_policies (fxx fyy : ℕ → ℕ → ℤ) (s1xx s1yy : ℕ → ℕ → ℚ)
    (Fblock t b tf ff : ℕ) :
    (goodForXX .orMode true true fxx fyy tf ff
        = !((fxx tf ff != 0) || (fyy tf ff != 0))) ∧
    ((goodForXX .orMode true true fxx fyy tf ff = true) ↔
        ¬ (fxx tf ff ≠ 0 ∨ fyy tf ff ≠ 0)) ∧
    (goodForXX .andMode true true fxx fyy tf ff
        = !((fxx tf ff != 0) && (fyy tf ff != 0))) ∧
    ((goodForXX .andMode true true fxx fyy tf ff = true) ↔
        ¬ (fxx tf ff ≠ 0 ∧ fyy tf ff ≠ 0)) ∧
    goodForXX .orMode true true fxx fyy = goodForYY .orMode true true fxx fyy ∧
    goodForXX .andMode true true fxx fyy = goodForYY .andMode true true fxx fyy ∧
    rfiCleanXX .orMode true true s1xx fxx fyy Fblock t b
        = s1Clean s1xx (goodForYY .orMode true true fxx fyy) Fblock t b ∧
    rfiCleanYY .orMode true true s1yy fxx fyy Fblock t b
        = s1Clean s1yy (goodForXX .orMode true true fxx fyy) Fblock t b ∧
    rfiCleanXX .andMode true true s1xx fxx fyy Fblock t b
        = s1Clean s1xx (goodForYY .andMode true true fxx fyy) Fblock t b ∧
    rfiCleanYY .andMode true true s1yy fxx fyy Fblock t b
        = s1Clean s1yy (goodForXX .andMode true true fxx fyy) Fblock t b := by
  refine ⟨rfl, ?_, rfl, ?_, rfl, rfl, rfl, rfl, rfl, rfl⟩
  · show ((!((fxx tf ff != 0) || (fyy tf ff != 0))) = true) ↔
      ¬ (fxx tf ff ≠ 0 ∨ fyy tf ff ≠ 0)
    simp
  · show ((!((fxx tf ff != 0) && (fyy tf ff != 0))) = true) ↔
      ¬ (fxx tf ff ≠ 0 ∧ fyy tf ff ≠ 0)
    simp
    tauto

/-- C8: when `or` or `and` is requested with a single polarization
present, the combiner builds no shared mask and the present polarization
is integrated with its own flags == 0 mask, exactly as under `separate`;
no failure occurs (the model is total on this input). -/
theorem c8_single_pol_fallback (mode : FlagMode) (s1xx s1yy : ℕ → ℕ → ℚ)
    (fxx fyy : ℕ → ℕ → ℤ) (Fblock t b : ℕ) :
    goodForXX mode true false fxx fyy = (fun tf ff => fxx tf ff == 0) ∧
    goodForYY mode false true fxx fyy = (fun tf ff => fyy tf ff == 0) ∧
    rfiCleanXX mode true false s1xx fxx fyy Fblock t b
        = rfiCleanXX .sepMode true false s1xx fxx fyy Fblock t b ∧
    rfiCleanYY mode false true s1yy fxx fyy Fblock t b
        = rfiCleanYY .sepMode false true s1yy fxx fyy Fblock t b := by
  have hx : goodComb mode true false fxx fyy = none := by
    simp [goodComb]
  have hy : goodComb mode false true fxx fyy = none := by
    simp [goodComb]
  have hx0 : goodComb .sepMode true false fxx fyy = none := by
    simp [goodComb]
  have hy0 : goodComb .sepMode false true fxx fyy = none := by
    simp [goodComb]
  refine ⟨?_, ?_, ?_, ?_⟩
  · unfold goodForXX
    rw [hx]
  · unfold goodForYY
    rw [hy]
  · unfold rfiCleanXX goodForXX
    rw [hx, hx0]
  · unfold rfiCleanYY goodForYY
    rw [hy, hy0]

/-- C9: stage 2 forms n_blocks = floor(F / F_block) frequency blocks; no
output value — cleaned cell, good-channel count or block frequency
label — depends on the F - n_blocks*F_block trailing channels (two runs
agreeing on channels below F_eff agree on every output for every block
b < n_blocks), the label of a block is the mean of its F_block
constituent channel frequencies; and F = 10, F_block = 4 gives
n_blocks = 2, F_eff = 8. -/
theorem c9_frequency_blocks (F Fblock : ℕ) (freq freq2 : ℕ → ℚ)
    (s1 s12 : ℕ → ℕ → ℚ) (good good2 : ℕ → ℕ → Bool)
    (hfr : ∀ c, c < fEff F Fblock → freq c = freq2 c)
    (hs1 : ∀ t c, c < fEff F Fblock → s1 t c = s12 t c)
    (hg : ∀ t c, c < fEff F Fblock → good t c = good2 t c)
    (b : ℕ) (hb : b < nBlocksOf F Fblock) (t : ℕ) :
    nBlocksOf F Fblock = F / Fblock ∧
    freqBlk freq Fblock b
      = (∑ j ∈ Finset.range Fblock, freq (b * Fblock + j)) / (Fblock : ℚ) ∧
    freqBlk freq Fblock b = freqBlk freq2 Fblock b ∧
    s1Clean s1 good Fblock t b = s1Clean s12 good2 Fblock t b ∧
    nGood good Fblock t b = nGood good2 Fblock t b ∧
    nBlocksOf 10 4 = 2 ∧ fEff 10 4 = 8 := by
  have hch : ∀ j, j < Fblock → b * Fblock + j < fEff F Fblock := by
    intro j hj
    have := block_row_lt 0 Fblock b j (nBlocksOf F Fblock) hb hj
    unfold fEff
    omega
  have hgood : ∀ j ∈ Finset.range Fblock,
      good t (b * Fblock + j) = good2 t (b * Fblock + j) :=
    fun j hj => hg t _ (hch j (Finset.mem_range.mp hj))
  have hsum : s1Sum s1 good Fblock t b = s1Sum s12 good2 Fblock t b := by
    unfold s1Sum goodF
    refine Finset.sum_congr rfl fun j hj => ?_
    rw [hs1 t _ (hch j (Finset.mem_range.mp hj)), hgood j hj]
  have hcount : nGoodQ good Fblock t b = nGoodQ good2 Fblock t b := by
    unfold nGoodQ goodF
    refine Finset.sum_congr rfl fun j hj => ?_
    rw [hgood j hj]
  refine ⟨rfl, rfl, ?_, ?_, ?_, rfl, rfl⟩
  · unfold freqBlk
    congr 1
    refine Finset.sum_congr rfl fun j hj => hfr _ (hch j (Finset.mem_range.mp hj))
  · unfold s1Clean
    rw [hsum, hcount]
  · unfold nGood
    refine congrArg Finset.card (Finset.filter_congr fun j hj => ?_)
    rw [hgood j hj]

/-- Witness for C9: F = 10, F_block = 4; changing the two trailing
channels (8 and 9) changes neither block 1's frequency label nor its
cleaned cell. -/
theorem c9_frequency_blocks_witness :
    freqBlk (fun c => (c : ℚ)) 4 1
      = freqBlk (fun c => if c < 8 then (c : ℚ) else 99) 4 1 ∧
    s1Clean (fun _ c => (c : ℚ)) (fun _ _ => true) 4 0 1
      = s1Clean (fun _ c => if c < 8 then (c : ℚ) else 0) (fun _ c => c < 8) 4 0 1 := by
  have h := c9_frequency_blocks 10 4 (fun c => (c : ℚ))
    (fun c => if c < 8 then (c : ℚ) else 99)
    (fun _ c => (c : ℚ)) (fun _ c => if c < 8 then (c : ℚ) else 0)
    (fun _ _ => true) (fun _ c => c < 8)
    (by
      intro c hc
      have hc8 : c < 8 := by simpa [fEff, nBlocksOf] using hc
      show (c : ℚ) = if c < 8 then (c : ℚ) else 99
      rw [if_pos hc8])
    (by
      intro t c hc
      have hc8 : c < 8 := by simpa [fEff, nBlocksOf] using hc
      show (c : ℚ) = if c < 8 then (c : ℚ) else 0
      rw [if_pos hc8])
    (by
      intro t c hc
      have hc8 : c < 8 := by simpa [fEff, nBlocksOf] using hc
      show true = decide (c < 8)
      simp [hc8])
    1 (by decide) 0
  exact ⟨h.2.2.1, h.2.2.2.1⟩

/-- C10 counterexample: the flag of a NaN SK cell is 0, yet under the
`or` policy with both polarizations present and the other polarization
flagging the same cell, the combined mask marks the cell bad, so the cell
is not treated as good by every downstream mask policy. -/
theorem c10_counterexample :
    skFlag FloatVal.nan (FloatVal.val 0) (FloatVal.val 1) = 0 ∧
    goodForXX .orMode true true (fun _ _ => 0) (fun _ _ => 1) 0 0 = false := by
  decide

/-- C10 (amended): a NaN SK value compares false against both thresholds,
so its cell keeps flag 0 (OK); such a cell is treated as good under the
`separate` policy, under the `and` policy, and under `or`/`and` when only
one polarization is present; under the `or` policy with both
polarizations present it is good exactly when the other polarization's
flag at the same cell is also 0. -/
theorem c10_nan_flag_good (lower upper : FloatVal) (fxx fyy : ℕ → ℕ → ℤ)
    (t f : ℕ) (hx : fxx t f = 0) :
    skFlag FloatVal.nan lower upper = 0 ∧
    goodForXX .sepMode true true fxx fyy t f = true ∧
    goodForXX .andMode true true fxx fyy t f = true ∧
    goodForXX .orMode true false fxx fyy t f = true ∧
    goodForXX .andMode true false fxx fyy t f = true ∧
    (goodForXX .orMode true true fxx fyy t f = true ↔ fyy t f = 0) := by
  refine ⟨?_, ?_, ?_, ?_, ?_, ?_⟩
  · cases lower <;> cases upper <;> rfl
  · show (fxx t f == 0) = true
    simp [hx]
  · show (!((fxx t f != 0) && (fyy t f != 0))) = true
    simp [hx]
  · show (fxx t f == 0) = true
    simp [hx]
  · show (fxx t f == 0) = true
    simp [hx]
  · show ((!((fxx t f != 0) || (fyy t f != 0))) = true) ↔ fyy t f = 0
    simp [hx]

/-- Witness for C10's amended statement at concrete flag arrays. -/
theorem c10_nan_flag_good_witness :
    skFlag FloatVal.nan (FloatVal.val 0) (FloatVal.val 1) = 0 ∧
    goodForXX .andMode true true (fun _ _ => 0) (fun _ _ => 1) 0 0 = true := by
  have h := c10_nan_flag_good (FloatVal.val 0) (FloatVal.val 1)
    (fun _ _ => 0) (fun _ _ => 1) 0 0 rfl
  exact ⟨h.1, h.2.2.1⟩

end OvroLwaSk
